import Mathlib

/-!
Shallow embedding of the appointment-booking core of `src/app.py`
(patient registry, appointment scheduler, conflict check, chronological
listing).  The HTML templating, routing and flash-message plumbing are
outside the specified core; the embedded operations return explicit
result values in place of flash messages and redirects.

Python strings are modelled as Lean `String`s; `str.strip`, `str.lower`
and `int(...)` are modelled on the underlying character lists (ASCII
whitespace and ASCII letter case, which covers every string the
specification and the claims exercise).  `datetime.strptime` with the
fixed format `"%Y-%m-%d %H:%M"` is modelled by `strptimeYmdHM` below,
following CPython's `_strptime` regular expression for each directive
plus the calendar validation performed by the `datetime` constructor.
The in-memory `dict`s (which iterate in insertion order) are modelled
as association lists to which fresh keys are appended.
-/

namespace App

/-- ASCII whitespace, the characters Python's `str.strip` and `\s` remove
from the strings this application handles. -/
def isPySpace (c : Char) : Bool :=
  c == ' ' || c == '\t' || c == '\n' || c == '\r' || c == '\x0b' || c == '\x0c'

/-- Strip `isPySpace` characters from both ends of a character list. -/
def pyStripL (l : List Char) : List Char :=
  ((l.dropWhile isPySpace).reverse.dropWhile isPySpace).reverse

/-- Model of Python `str.strip()`. -/
def pyStrip (s : String) : String :=
  ⟨pyStripL s.data⟩

/-- Model of Python `str.lower()` (ASCII case folding). -/
def pyLower (s : String) : String :=
  ⟨s.data.map Char.toLower⟩

/-- Numeric value of a decimal digit character. -/
def digitVal (c : Char) : Nat := c.toNat - 48

/-- Digits of a decimal integer literal after the first digit, allowing
single underscores between digits as Python's `int` does. -/
def pyIntDigits (acc : Nat) : List Char → Option Nat
  | [] => some acc
  | '_' :: c :: cs => if c.isDigit then pyIntDigits (10 * acc + digitVal c) cs else none
  | c :: cs => if c.isDigit then pyIntDigits (10 * acc + digitVal c) cs else none

/-- Model of Python `int(s)` for a decimal string: surrounding whitespace
is ignored, an optional sign is followed by at least one digit, and
underscores may separate digit groups; `none` models the `ValueError`
raised on any other input. -/
def pyInt (s : String) : Option Int :=
  match pyStripL s.data with
  | '+' :: c :: rest =>
    if c.isDigit then (pyIntDigits (digitVal c) rest).map (fun n => (n : Int)) else none
  | '-' :: c :: rest =>
    if c.isDigit then (pyIntDigits (digitVal c) rest).map (fun n => -(n : Int)) else none
  | c :: rest =>
    if c.isDigit then (pyIntDigits (digitVal c) rest).map (fun n => (n : Int)) else none
  | [] => none

/-- Model of `int(s)` wrapped in `try: ... except ValueError: 0`, as in
`create_appointment`. -/
def pyIntOr0 (s : String) : Int :=
  (pyInt s).getD 0

/-- A parsed `datetime` value (year, month, day, hour, minute). -/
structure DT where
  year : Nat
  month : Nat
  day : Nat
  hour : Nat
  minute : Nat
deriving DecidableEq

/-- Lexicographic comparison of `datetime` values, as Python compares
`datetime` objects. -/
def DT.le (a b : DT) : Bool :=
  decide (a.year < b.year) ||
    (a.year == b.year &&
      (decide (a.month < b.month) ||
        (a.month == b.month &&
          (decide (a.day < b.day) ||
            (a.day == b.day &&
              (decide (a.hour < b.hour) ||
                (a.hour == b.hour && decide (a.minute ≤ b.minute))))))))

/-- Gregorian leap-year test (as in Python's `calendar`/`datetime`). -/
def isLeapYear (y : Nat) : Bool :=
  y % 4 == 0 && (y % 100 != 0 || y % 400 == 0)

/-- Number of days in a month, used by the `datetime` constructor's
validation. -/
def daysInMonth (y m : Nat) : Nat :=
  if m == 2 then (if isLeapYear y then 29 else 28)
  else if m == 4 || m == 6 || m == 9 || m == 11 then 30
  else 31

/-- CPython `%Y` directive: exactly four decimal digits. -/
def matchYear : List Char → Option (Nat × List Char)
  | c1 :: c2 :: c3 :: c4 :: rest =>
    if c1.isDigit && c2.isDigit && c3.isDigit && c4.isDigit then
      some (1000 * digitVal c1 + 100 * digitVal c2 + 10 * digitVal c3 + digitVal c4, rest)
    else none
  | _ => none

/-- CPython `%m` directive: one or two digits forming 1..12. -/
def matchMonth : List Char → Option (Nat × List Char)
  | c1 :: c2 :: rest =>
    if c1 == '1' && c2.isDigit && digitVal c2 ≤ 2 then some (10 + digitVal c2, rest)
    else if c1 == '0' && c2.isDigit && 1 ≤ digitVal c2 then some (digitVal c2, rest)
    else if c1.isDigit && 1 ≤ digitVal c1 then some (digitVal c1, c2 :: rest)
    else none
  | [c1] => if c1.isDigit && 1 ≤ digitVal c1 then some (digitVal c1, []) else none
  | [] => none

/-- CPython `%d` directive: one or two digits forming 1..31. -/
def matchDay : List Char → Option (Nat × List Char)
  | c1 :: c2 :: rest =>
    if c1 == '3' && c2.isDigit && digitVal c2 ≤ 1 then some (30 + digitVal c2, rest)
    else if (c1 == '1' || c1 == '2') && c2.isDigit then
      some (10 * digitVal c1 + digitVal c2, rest)
    else if c1 == '0' && c2.isDigit && 1 ≤ digitVal c2 then some (digitVal c2, rest)
    else if c1.isDigit && 1 ≤ digitVal c1 then some (digitVal c1, c2 :: rest)
    else none
  | [c1] => if c1.isDigit && 1 ≤ digitVal c1 then some (digitVal c1, []) else none
  | [] => none

/-- CPython `%H` directive: one or two digits forming 0..23. -/
def matchHour : List Char → Option (Nat × List Char)
  | c1 :: c2 :: rest =>
    if c1 == '2' && c2.isDigit && digitVal c2 ≤ 3 then some (20 + digitVal c2, rest)
    else if (c1 == '0' || c1 == '1') && c2.isDigit then
      some (10 * digitVal c1 + digitVal c2, rest)
    else if c1.isDigit then some (digitVal c1, c2 :: rest)
    else none
  | [c1] => if c1.isDigit then some (digitVal c1, []) else none
  | [] => none

/-- CPython `%M` directive: one or two digits forming 0..59. -/
def matchMinute : List Char → Option (Nat × List Char)
  | c1 :: c2 :: rest =>
    if c1.isDigit && digitVal c1 ≤ 5 && c2.isDigit then
      some (10 * digitVal c1 + digitVal c2, rest)
    else if c1.isDigit then some (digitVal c1, c2 :: rest)
    else none
  | [c1] => if c1.isDigit then some (digitVal c1, []) else none
  | [] => none

/-- Whitespace in a strptime format matches one or more whitespace
characters. -/
def matchSpaces : List Char → Option (List Char)
  | c :: rest => if isPySpace c then some (rest.dropWhile isPySpace) else none
  | [] => none

/-- A literal character of the strptime format. -/
def matchChar (ch : Char) : List Char → Option (List Char)
  | c :: rest => if c == ch then some rest else none
  | [] => none

/-- Model of `datetime.strptime(s, "%Y-%m-%d %H:%M")`: the directive-by-
directive match, the "unconverted data remains" check, and the calendar
validation (year at least 1, day within the month) performed by the
`datetime` constructor.  `none` models the raised `ValueError`. -/
def strptimeYmdHM (s : List Char) : Option DT := do
  let (y, s1) ← matchYear s
  let s2 ← matchChar '-' s1
  let (mo, s3) ← matchMonth s2
  let s4 ← matchChar '-' s3
  let (d, s5) ← matchDay s4
  let s6 ← matchSpaces s5
  let (h, s7) ← matchHour s6
  let s8 ← matchChar ':' s7
  let (mi, s9) ← matchMinute s8
  if s9.isEmpty then
    if 1 ≤ y && d ≤ daysInMonth y mo then some ⟨y, mo, d, h, mi⟩ else none
  else none

/-- Embedding of `parse_datetime` from `src/app.py`: parse
`f"{date_str} {time_str}"` with format `"%Y-%m-%d %H:%M"`. -/
def parse_datetime (date_str time_str : String) : Option DT :=
  strptimeYmdHM (date_str ++ " " ++ time_str).data

/-- A patient record as stored in the `patients` dict. -/
structure Patient where
  nombre : String
  documento : String
  telefono : String
  correo : String
deriving DecidableEq

/-- An appointment record as stored in the `appointments` dict. -/
structure Appointment where
  paciente_id : Int
  fecha : String
  hora : String
  medico : String
  estado : String
deriving DecidableEq

/-- The fixed status string stored by `create_appointment`
(`"Programada"`, rendered "Scheduled" in the English specification). -/
def scheduledStatus : String := "Programada"

/-- The global in-memory stores and the two `itertools.count(start=1)`
generators; each counter field holds the next value it will yield. -/
structure AppState where
  patients : List (Nat × Patient)
  appointments : List (Nat × Appointment)
  pid_counter : Nat
  aid_counter : Nat
deriving DecidableEq

/-- The stores at process start: empty dicts, both counters at 1. -/
def initialState : AppState :=
  { patients := [], appointments := [], pid_counter := 1, aid_counter := 1 }

/-- Embedding of `has_conflict` from `src/app.py`: scan the appointments
for one whose normalised doctor matches and whose date and time strings
are equal, optionally skipping one id (the skip guard reproduces the
Python truthiness test, under which an exclusion id of 0 is ignored). -/
def has_conflict (appts : List (Nat × Appointment)) (medico fecha hora : String)
    (exclude_appointment_id : Option Nat) : Bool :=
  appts.any fun q =>
    !(match exclude_appointment_id with
      | some e => !(e == 0) && q.1 == e
      | none => false) &&
    (pyLower (pyStrip q.2.medico) == pyLower (pyStrip medico) &&
      q.2.fecha == fecha && q.2.hora == hora)

/-- The sort key of `upcoming_sorted`: the parsed date/time of the
appointment.  The default value is irrelevant: `upcoming_sorted` only
sorts lists on which every key parses. -/
def keyfun (q : Nat × Appointment) : DT :=
  (parse_datetime q.2.fecha q.2.hora).getD ⟨0, 0, 0, 0, 0⟩

/-- Key comparison used for the chronological sort. -/
def keyLe (p q : Nat × Appointment) : Bool :=
  DT.le (keyfun p) (keyfun q)

/-- Embedding of `upcoming_sorted` from `src/app.py`: a stable ascending
sort of the `(id, appointment)` pairs by parsed date/time (Python's
`sorted` is stable).  `none` models the `ValueError` the key function
raises when some stored date/time does not parse. -/
def upcoming_sorted (aps : List (Nat × Appointment)) : Option (List (Nat × Appointment)) :=
  if aps.all (fun q => (parse_datetime q.2.fecha q.2.hora).isSome) then
    some (aps.mergeSort keyLe)
  else none

/-- Outcome of `create_patient` (`register`); the error constructors
stand for the flash messages of the source. -/
inductive RegisterResult where
  | ok (pid : Nat)
  | validationError
  | duplicateDocumentError
deriving DecidableEq

/-- Outcome of `create_appointment` (`book`). -/
inductive BookResult where
  | ok (aid : Nat)
  | invalidPatientError
  | invalidDateTimeError
  | missingDoctorError
  | conflictError
deriving DecidableEq

/-- Outcome of `cancel_appointment` (`cancel`). -/
inductive CancelResult where
  | ok
  | notFoundError
deriving DecidableEq

/-- Embedding of `create_patient` from `src/app.py`.  The four arguments
are the raw form fields (`none` for an absent field, which
`request.form.get(key, "")` turns into `""`). -/
def create_patient (st : AppState)
    (nombre? documento? telefono? correo? : Option String) :
    RegisterResult × AppState :=
  let nombre := pyStrip (nombre?.getD "")
  let documento := pyStrip (documento?.getD "")
  let telefono := pyStrip (telefono?.getD "")
  let correo := pyStrip (correo?.getD "")
  if nombre == "" || documento == "" || telefono == "" || correo == "" then
    (.validationError, st)
  else if st.patients.any
      (fun q => pyLower (pyStrip q.2.documento) == pyLower documento) then
    (.duplicateDocumentError, st)
  else
    let p_id := st.pid_counter
    (.ok p_id,
      { st with
        patients := st.patients ++ [(p_id, ⟨nombre, documento, telefono, correo⟩)],
        pid_counter := p_id + 1 })

/-- Embedding of `create_appointment` from `src/app.py`.  The arguments
are the raw form fields; a missing `paciente_id` defaults to `"0"` and a
non-integer one is coerced to 0 by the `try`/`except`. -/
def create_appointment (st : AppState)
    (paciente_id? fecha? hora? medico? : Option String) :
    BookResult × AppState :=
  let paciente_id : Int := pyIntOr0 (paciente_id?.getD "0")
  let fecha := pyStrip (fecha?.getD "")
  let hora := pyStrip (hora?.getD "")
  let medico := pyStrip (medico?.getD "")
  if !(st.patients.any (fun q => (q.1 : Int) == paciente_id)) then
    (.invalidPatientError, st)
  else if (parse_datetime fecha hora).isNone then
    (.invalidDateTimeError, st)
  else if medico == "" then
    (.missingDoctorError, st)
  else if has_conflict st.appointments medico fecha hora none then
    (.conflictError, st)
  else
    let a_id := st.aid_counter
    (.ok a_id,
      { st with
        appointments :=
          st.appointments ++ [(a_id, ⟨paciente_id, fecha, hora, medico, scheduledStatus⟩)],
        aid_counter := a_id + 1 })

/-- Embedding of `cancel_appointment` from `src/app.py`: delete the
record if the id is present, report `NotFoundError` otherwise. -/
def cancel_appointment (st : AppState) (appointment_id : Nat) :
    CancelResult × AppState :=
  if !(st.appointments.any (fun q => q.1 == appointment_id)) then
    (.notFoundError, st)
  else
    (.ok,
      { st with
        appointments := st.appointments.filter (fun q => !(q.1 == appointment_id)) })

/-- Embedding of the listing logic of the `home` route
(`listOrderedByTime`): sort all appointments chronologically, then, if
the `medico` query argument is non-empty after stripping, keep only the
normalised matches. -/
def home (st : AppState) (medico_arg? : Option String) :
    Option (List (Nat × Appointment)) :=
  let medico_filter := pyStrip (medico_arg?.getD "")
  (upcoming_sorted st.appointments).map fun ordered =>
    if medico_filter == "" then ordered
    else ordered.filter
      (fun q => pyLower (pyStrip q.2.medico) == pyLower (pyStrip medico_filter))

/-- The user-driven operations of the core, with their raw inputs. -/
inductive Op where
  | register (nombre documento telefono correo : Option String)
  | book (paciente_id fecha hora medico : Option String)
  | cancel (appointment_id : Nat)

/-- An identifier assigned by a successful creation. -/
inductive Ev where
  | pat (id : Nat)
  | appt (id : Nat)
deriving DecidableEq

/-- Apply one operation; also report the identifier it assigned, if
any. -/
def applyOp (st : AppState) : Op → AppState × List Ev
  | .register n d t c =>
    let r := create_patient st n d t c
    (r.2, match r.1 with | .ok pid => [.pat pid] | _ => [])
  | .book p f h m =>
    let r := create_appointment st p f h m
    (r.2, match r.1 with | .ok aid => [.appt aid] | _ => [])
  | .cancel i => ((cancel_appointment st i).2, [])

/-- Run a sequence of operations, collecting the assigned identifiers in
order. -/
def runEvents (st : AppState) : List Op → AppState × List Ev
  | [] => (st, [])
  | op :: ops =>
    let r := applyOp st op
    let r2 := runEvents r.1 ops
    (r2.1, r.2 ++ r2.2)

/-- The patient identifiers among a list of assignment events. -/
def patIds (evs : List Ev) : List Nat :=
  evs.filterMap fun e => match e with | .pat i => some i | .appt _ => none

/-- The appointment identifiers among a list of assignment events. -/
def apptIds (evs : List Ev) : List Nat :=
  evs.filterMap fun e => match e with | .appt i => some i | .pat _ => none

/-- The states reachable from the empty stores by register, book and
cancel operations. -/
inductive Reachable : AppState → Prop where
  | init : Reachable initialState
  | register (st : AppState) (n d t c : Option String) :
      Reachable st → Reachable (create_patient st n d t c).2
  | book (st : AppState) (p f h m : Option String) :
      Reachable st → Reachable (create_appointment st p f h m).2
  | cancel (st : AppState) (i : Nat) :
      Reachable st → Reachable (cancel_appointment st i).2

/-- The facts that hold of every reachable state and that the claims
need: keys are positive, below their counter and strictly increasing in
insertion order; every stored date/time parses; every status is the
fixed constant; no two records share a normalised (doctor, date, time)
slot. -/
structure Inv (st : AppState) : Prop where
  pidPos : 1 ≤ st.pid_counter
  aidPos : 1 ≤ st.aid_counter
  patKeys : ∀ q ∈ st.patients, 1 ≤ q.1 ∧ q.1 < st.pid_counter
  apptKeys : ∀ q ∈ st.appointments, 1 ≤ q.1 ∧ q.1 < st.aid_counter
  apptKeysSorted : st.appointments.Pairwise (fun a b => a.1 < b.1)
  parseOk : ∀ q ∈ st.appointments, (parse_datetime q.2.fecha q.2.hora).isSome = true
  estadoEq : ∀ q ∈ st.appointments, q.2.estado = scheduledStatus
  noSlotClash : st.appointments.Pairwise (fun a b =>
    ¬ (pyLower (pyStrip a.2.medico) = pyLower (pyStrip b.2.medico) ∧
        a.2.fecha = b.2.fecha ∧ a.2.hora = b.2.hora))


/-! ### A concrete run used by the witnesses -/

/-- The registered patient of the concrete run. -/
def examplePatient : Patient :=
  ⟨"Juan Perez", "CC-1001", "3000000001", "juan@example.com"⟩

/-- The booked appointment of the concrete run. -/
def exampleAppt : Appointment :=
  ⟨1, "2025-03-10", "09:00", "Dr. Lopez", scheduledStatus⟩

/-- State after registering one patient from the empty stores. -/
def exampleState1 : AppState :=
  (create_patient initialState (some "Juan Perez") (some "CC-1001")
    (some "3000000001") (some "juan@example.com")).2

/-- State after additionally booking one appointment. -/
def exampleState2 : AppState :=
  (create_appointment exampleState1 (some "1") (some "2025-03-10") (some "09:00")
    (some "Dr. Lopez")).2

/-! ### Order facts about the sort key -/

theorem DT.le_refl' (a : DT) : DT.le a a = true := by
  simp [DT.le]

theorem DT.le_trans' (a b c : DT) :
    DT.le a b = true → DT.le b c = true → DT.le a c = true := by
  simp only [DT.le, Bool.or_eq_true, Bool.and_eq_true, decide_eq_true_eq, beq_iff_eq]
  omega

theorem DT.le_total' (a b : DT) : (DT.le a b || DT.le b a) = true := by
  simp only [DT.le, Bool.or_eq_true, Bool.and_eq_true, decide_eq_true_eq, beq_iff_eq]
  omega

theorem keyLe_trans (a b c : Nat × Appointment) :
    keyLe a b = true → keyLe b c = true → keyLe a c = true :=
  DT.le_trans' _ _ _

theorem keyLe_total (a b : Nat × Appointment) : (keyLe a b || keyLe b a) = true :=
  DT.le_total' _ _

/-! ### Bridging the boolean scans to logical statements -/

theorem has_conflict_eq_false_iff (appts : List (Nat × Appointment))
    (medico fecha hora : String) :
    has_conflict appts medico fecha hora none = false ↔
      ∀ q ∈ appts,
        ¬ (pyLower (pyStrip q.2.medico) = pyLower (pyStrip medico) ∧
            q.2.fecha = fecha ∧ q.2.hora = hora) := by
  simp [has_conflict, List.any_eq_false, and_assoc]

theorem patients_any_iff (st : AppState) (pid : Int) :
    (st.patients.any fun q => (q.1 : Int) == pid) = true ↔
      ∃ q ∈ st.patients, (q.1 : Int) = pid := by
  simp [List.any_eq_true]

theorem appointments_any_iff (st : AppState) (i : Nat) :
    (st.appointments.any fun q => q.1 == i) = true ↔
      ∃ q ∈ st.appointments, q.1 = i := by
  simp [List.any_eq_true]

/-! ### The reachable-state invariant -/

theorem inv_init : Inv initialState := by
  constructor <;> simp [initialState]

theorem inv_register (st : AppState) (n d t c : Option String) (h : Inv st) :
    Inv (create_patient st n d t c).2 := by
  unfold create_patient
  dsimp only
  split_ifs with h1 h2
  · exact h
  · exact h
  · constructor
    · exact Nat.le_succ_of_le h.pidPos
    · exact h.aidPos
    · intro q hq
      show 1 ≤ q.1 ∧ q.1 < st.pid_counter + 1
      rcases List.mem_append.1 hq with hq | hq
      · have := h.patKeys q hq
        omega
      · simp only [List.mem_singleton] at hq
        subst hq
        exact ⟨h.pidPos, Nat.lt_succ_self _⟩
    · exact h.apptKeys
    · exact h.apptKeysSorted
    · exact h.parseOk
    · exact h.estadoEq
    · exact h.noSlotClash

theorem inv_book (st : AppState) (p f hr m : Option String) (h : Inv st) :
    Inv (create_appointment st p f hr m).2 := by
  unfold create_appointment
  dsimp only
  split_ifs with h1 h2 h3 h4
  · exact h
  · exact h
  · exact h
  · exact h
  · constructor
    · exact h.pidPos
    · exact Nat.le_succ_of_le h.aidPos
    · exact h.patKeys
    · intro q hq
      show 1 ≤ q.1 ∧ q.1 < st.aid_counter + 1
      rcases List.mem_append.1 hq with hq | hq
      · have := h.apptKeys q hq
        omega
      · simp only [List.mem_singleton] at hq
        subst hq
        exact ⟨h.aidPos, Nat.lt_succ_self _⟩
    · refine List.pairwise_append.2 ⟨h.apptKeysSorted, List.pairwise_singleton _ _, ?_⟩
      intro a ha b hb
      simp only [List.mem_singleton] at hb
      subst hb
      exact (h.apptKeys a ha).2
    · intro q hq
      rcases List.mem_append.1 hq with hq | hq
      · exact h.parseOk q hq
      · simp only [List.mem_singleton] at hq
        subst hq
        simpa [Option.isNone_iff_eq_none, Option.isSome_iff_ne_none] using h2
    · intro q hq
      rcases List.mem_append.1 hq with hq | hq
      · exact h.estadoEq q hq
      · simp only [List.mem_singleton] at hq
        subst hq
        rfl
    · refine List.pairwise_append.2 ⟨h.noSlotClash, List.pairwise_singleton _ _, ?_⟩
      intro a ha b hb
      simp only [List.mem_singleton] at hb
      subst hb
      have h4' := (has_conflict_eq_false_iff st.appointments _ _ _).1
        (Bool.eq_false_iff.2 h4) a ha
      exact h4'

theorem inv_cancel (st : AppState) (i : Nat) (h : Inv st) :
    Inv (cancel_appointment st i).2 := by
  unfold cancel_appointment
  split_ifs with h1
  · exact h
  · constructor
    · exact h.pidPos
    · exact h.aidPos
    · exact h.patKeys
    · intro q hq
      exact h.apptKeys q (List.mem_of_mem_filter hq)
    · exact h.apptKeysSorted.sublist (List.filter_sublist _)
    · intro q hq
      exact h.parseOk q (List.mem_of_mem_filter hq)
    · intro q hq
      exact h.estadoEq q (List.mem_of_mem_filter hq)
    · exact h.noSlotClash.sublist (List.filter_sublist _)

theorem reachable_inv {st : AppState} (h : Reachable st) : Inv st := by
  induction h with
  | init => exact inv_init
  | register st n d t c _ ih => exact inv_register st n d t c ih
  | book st p f hr m _ ih => exact inv_book st p f hr m ih
  | cancel st i _ ih => exact inv_cancel st i ih

/-! ### Stripping is idempotent -/

theorem dropWhile_pyStripL (l : List Char) :
    (pyStripL l).dropWhile isPySpace = pyStripL l := by
  unfold pyStripL
  cases hm : l.dropWhile isPySpace with
  | nil => simp
  | cons c rest =>
    have hc : isPySpace c = false := by
      have hh := List.head?_dropWhile_not isPySpace l
      rw [hm] at hh
      simpa using hh
    rw [List.reverse_cons, List.dropWhile_append]
    split
    · rw [List.dropWhile_cons_of_neg (by simp [hc]), List.reverse_cons,
        List.reverse_nil, List.nil_append,
        List.dropWhile_cons_of_neg (by simp [hc])]
    · rw [List.reverse_append, List.reverse_cons, List.reverse_nil, List.nil_append,
        List.singleton_append, List.dropWhile_cons_of_neg (by simp [hc])]

theorem pyStripL_idem (l : List Char) : pyStripL (pyStripL l) = pyStripL l := by
  conv_lhs => rw [pyStripL]
  rw [dropWhile_pyStripL l, pyStripL, List.reverse_reverse, List.dropWhile_idempotent]

theorem pyStrip_idem (s : String) : pyStrip (pyStrip s) = pyStrip s := by
  show (⟨pyStripL (pyStripL s.data)⟩ : String) = ⟨pyStripL s.data⟩
  rw [pyStripL_idem]

/-! ### More bridge lemmas -/

theorem has_conflict_eq_true_iff (appts : List (Nat × Appointment))
    (medico fecha hora : String) :
    has_conflict appts medico fecha hora none = true ↔
      ∃ q ∈ appts,
        pyLower (pyStrip q.2.medico) = pyLower (pyStrip medico) ∧
          q.2.fecha = fecha ∧ q.2.hora = hora := by
  simp [has_conflict, List.any_eq_true, and_assoc]

theorem upcoming_sorted_eq_some {aps l : List (Nat × Appointment)}
    (h : upcoming_sorted aps = some l) :
    l = aps.mergeSort keyLe ∧
      ∀ q ∈ aps, (parse_datetime q.2.fecha q.2.hora).isSome = true := by
  unfold upcoming_sorted at h
  split_ifs at h with hc
  exact ⟨(Option.some.inj h).symm, List.all_eq_true.1 hc⟩

/-! ### Shape of each operation's result -/

theorem create_patient_shape (st : AppState) (n d t c : Option String) :
    ((create_patient st n d t c).1 = .ok st.pid_counter ∧
      (create_patient st n d t c).2.pid_counter = st.pid_counter + 1 ∧
      (create_patient st n d t c).2.aid_counter = st.aid_counter) ∨
    ((create_patient st n d t c).2 = st ∧
      ((create_patient st n d t c).1 = .validationError ∨
        (create_patient st n d t c).1 = .duplicateDocumentError)) := by
  unfold create_patient
  dsimp only
  split_ifs <;> simp

theorem create_appointment_shape (st : AppState) (p f hr m : Option String) :
    ((create_appointment st p f hr m).1 = .ok st.aid_counter ∧
      (create_appointment st p f hr m).2.aid_counter = st.aid_counter + 1 ∧
      (create_appointment st p f hr m).2.pid_counter = st.pid_counter) ∨
    ((create_appointment st p f hr m).2 = st ∧
      ((create_appointment st p f hr m).1 = .invalidPatientError ∨
        (create_appointment st p f hr m).1 = .invalidDateTimeError ∨
        (create_appointment st p f hr m).1 = .missingDoctorError ∨
        (create_appointment st p f hr m).1 = .conflictError)) := by
  unfold create_appointment
  dsimp only
  split_ifs <;> simp

theorem cancel_appointment_shape (st : AppState) (i : Nat) :
    (cancel_appointment st i).2.pid_counter = st.pid_counter ∧
    (cancel_appointment st i).2.aid_counter = st.aid_counter ∧
    (cancel_appointment st i).2.patients = st.patients := by
  unfold cancel_appointment
  split_ifs <;> simp

/-- Removing the present key `i` from a list with strictly increasing
keys shortens it by exactly one entry. -/
theorem length_filter_ne_of_mem {l : List (Nat × Appointment)} {i : Nat}
    (hnd : l.Pairwise (fun a b => a.1 < b.1)) (hex : ∃ q ∈ l, q.1 = i) :
    (l.filter fun q => !(q.1 == i)).length + 1 = l.length := by
  induction l with
  | nil => simp at hex
  | cons x xs ih =>
    rcases hex with ⟨q, hq, hqi⟩
    rcases List.mem_cons.1 hq with rfl | hq
    · rw [List.filter_cons_of_neg (by simp [hqi])]
      have : xs.filter (fun q => !(q.1 == i)) = xs := by
        rw [List.filter_eq_self]
        intro a ha
        have := (List.pairwise_cons.1 hnd).1 a ha
        simp only [Bool.not_eq_eq_eq_not, Bool.not_true, beq_eq_false_iff_ne, ne_eq]
        omega
      simp [this]
    · have hxi : x.1 ≠ i := by
        have := (List.pairwise_cons.1 hnd).1 q hq
        omega
      rw [List.filter_cons_of_pos (by simp [hxi])]
      simp only [List.length_cons]
      have := ih (List.pairwise_cons.1 hnd).2 ⟨q, hq, hqi⟩
      omega

theorem exampleState1_reachable : Reachable exampleState1 :=
  Reachable.register initialState _ _ _ _ Reachable.init

theorem exampleState2_reachable : Reachable exampleState2 :=
  Reachable.book exampleState1 _ _ _ _ exampleState1_reachable

theorem exampleState1_eq :
    exampleState1 =
      { patients := [(1, examplePatient)], appointments := [],
        pid_counter := 2, aid_counter := 1 } := by
  decide

theorem exampleState2_eq :
    exampleState2 =
      { patients := [(1, examplePatient)], appointments := [(1, exampleAppt)],
        pid_counter := 2, aid_counter := 2 } := by
  decide

/-! ### The claims -/

/-- C1: in every state reachable by register, book and cancel operations
from the empty stores, no two distinct stored appointments have the same
doctor name (compared after trimming and lowercasing), the same date
string and the same time string. -/
theorem C1_no_duplicate_slot (st : AppState) (h : Reachable st) :
    st.appointments.Pairwise (fun a b =>
      ¬ (pyLower (pyStrip a.2.medico) = pyLower (pyStrip b.2.medico) ∧
          a.2.fecha = b.2.fecha ∧ a.2.hora = b.2.hora)) :=
  (reachable_inv h).noSlotClash

theorem C1_witness :
    exampleState2.appointments.Pairwise (fun a b =>
      ¬ (pyLower (pyStrip a.2.medico) = pyLower (pyStrip b.2.medico) ∧
          a.2.fecha = b.2.fecha ∧ a.2.hora = b.2.hora)) :=
  C1_no_duplicate_slot exampleState2 exampleState2_reachable

/-- C7: every appointment stored by a successful book has its status
equal to the fixed constant (`"Programada"`, the spec's "Scheduled"),
and no operation applied to a reachable state ever yields a stored
appointment with any other status. -/
theorem C7_status_always_scheduled (st : AppState) (h : Reachable st) :
    (∀ q ∈ st.appointments, q.2.estado = scheduledStatus) ∧
    ∀ (op : Op), ∀ q ∈ ((applyOp st op).1).appointments, q.2.estado = scheduledStatus := by
  refine ⟨(reachable_inv h).estadoEq, ?_⟩
  intro op
  cases op with
  | register n d t c => exact (reachable_inv (Reachable.register st n d t c h)).estadoEq
  | book p f hr m => exact (reachable_inv (Reachable.book st p f hr m h)).estadoEq
  | cancel i => exact (reachable_inv (Reachable.cancel st i h)).estadoEq

theorem C7_witness : exampleAppt.estado = scheduledStatus :=
  (C7_status_always_scheduled exampleState2 exampleState2_reachable).1
    (1, exampleAppt) (by decide)

/-- C9: in every reachable state the stored date and time strings of
every appointment parse under `"%Y-%m-%d %H:%M"`, so the sort-key
computation of the listing is total on stored data. -/
theorem C9_stored_datetimes_parse (st : AppState) (h : Reachable st) :
    (∀ q ∈ st.appointments, (parse_datetime q.2.fecha q.2.hora).isSome = true) ∧
    (upcoming_sorted st.appointments).isSome = true := by
  refine ⟨(reachable_inv h).parseOk, ?_⟩
  unfold upcoming_sorted
  rw [if_pos (List.all_eq_true.2 (reachable_inv h).parseOk)]
  rfl

theorem C9_witness : (upcoming_sorted exampleState2.appointments).isSome = true :=
  (C9_stored_datetimes_parse exampleState2 exampleState2_reachable).2

/-- C10: a missing `paciente_id` field, or one that `int()` cannot
parse, is coerced to 0; since every registered patient identifier is at
least 1, book then deterministically reports the invalid-patient error
and leaves the state unchanged. -/
theorem C10_bad_patient_id_rejected (st : AppState) (h : Reachable st)
    (p? f? hr? m? : Option String)
    (hp : p? = none ∨ ∃ s, p? = some s ∧ pyInt s = none) :
    pyIntOr0 (p?.getD "0") = 0 ∧
    create_appointment st p? f? hr? m? = (BookResult.invalidPatientError, st) := by
  have hpid : pyIntOr0 (p?.getD "0") = 0 := by
    rcases hp with rfl | ⟨s, rfl, hnone⟩
    · decide
    · simp [pyIntOr0, hnone]
  refine ⟨hpid, ?_⟩
  have hany : (st.patients.any fun q => (q.1 : Int) == pyIntOr0 (p?.getD "0")) = false := by
    rw [List.any_eq_false]
    intro q hq
    have hk := ((reachable_inv h).patKeys q hq).1
    simp only [beq_iff_eq, hpid]
    omega
  unfold create_appointment
  dsimp only
  rw [hany]
  simp

theorem C10_witness :
    pyIntOr0 ((some "abc").getD "0") = 0 ∧
    create_appointment exampleState2 (some "abc") (some "2025-03-10") (some "10:00")
        (some "Dr. Lopez") =
      (BookResult.invalidPatientError, exampleState2) :=
  C10_bad_patient_id_rejected exampleState2 exampleState2_reachable
    (some "abc") (some "2025-03-10") (some "10:00") (some "Dr. Lopez")
    (Or.inr ⟨"abc", rfl, by decide⟩)

/-- C4: cancelling a present id succeeds, removes exactly that record
(patients, counters and all other appointments untouched, in order), and
the id no longer appears in any subsequent listing; cancelling an absent
id reports `NotFoundError` and leaves the entire state unchanged. -/
theorem C4_cancel_spec (st : AppState) (h : Reachable st) (i : Nat) :
    ((¬ ∃ q ∈ st.appointments, q.1 = i) →
      cancel_appointment st i = (CancelResult.notFoundError, st)) ∧
    ((∃ q ∈ st.appointments, q.1 = i) →
      (cancel_appointment st i).1 = CancelResult.ok ∧
      (cancel_appointment st i).2.patients = st.patients ∧
      (cancel_appointment st i).2.pid_counter = st.pid_counter ∧
      (cancel_appointment st i).2.aid_counter = st.aid_counter ∧
      (cancel_appointment st i).2.appointments.length + 1 = st.appointments.length ∧
      List.Sublist (cancel_appointment st i).2.appointments st.appointments ∧
      (∀ q ∈ st.appointments, q.1 ≠ i → q ∈ (cancel_appointment st i).2.appointments) ∧
      (∀ q ∈ (cancel_appointment st i).2.appointments, q ∈ st.appointments ∧ q.1 ≠ i) ∧
      (∀ l, upcoming_sorted (cancel_appointment st i).2.appointments = some l →
        ∀ q ∈ l, q.1 ≠ i)) := by
  constructor
  · intro hnex
    have hb : (st.appointments.any fun q => q.1 == i) = false :=
      Bool.eq_false_iff.2 fun ht => hnex ((appointments_any_iff st i).1 ht)
    unfold cancel_appointment
    rw [hb]
    simp
  · intro hex
    have hb : (st.appointments.any fun q => q.1 == i) = true :=
      (appointments_any_iff st i).2 hex
    have hres : cancel_appointment st i =
        (CancelResult.ok,
          { st with appointments := st.appointments.filter fun q => !(q.1 == i) }) := by
      unfold cancel_appointment
      rw [hb]
      simp
    rw [hres]
    refine ⟨rfl, rfl, rfl, rfl, ?_, ?_, ?_, ?_, ?_⟩
    · exact length_filter_ne_of_mem (reachable_inv h).apptKeysSorted hex
    · exact List.filter_sublist _
    · intro q hq hne
      exact List.mem_filter.2 ⟨hq, by simp [hne]⟩
    · intro q hq
      have hq' := List.mem_filter.1 hq
      exact ⟨hq'.1, by simpa using hq'.2⟩
    · intro l hl q hql
      obtain ⟨hleq, _⟩ := upcoming_sorted_eq_some hl
      subst hleq
      have hq' := List.mem_mergeSort.1 hql
      have := (List.mem_filter.1 hq').2
      simpa using this

theorem C4_witness :
    (cancel_appointment exampleState2 1).1 = CancelResult.ok ∧
    (cancel_appointment exampleState2 1).2.patients = exampleState2.patients ∧
    (cancel_appointment exampleState2 1).2.appointments.length + 1 =
      exampleState2.appointments.length := by
  have h2 := (C4_cancel_spec exampleState2 exampleState2_reachable 1).2
    ⟨(1, exampleAppt), by decide, rfl⟩
  exact ⟨h2.1, h2.2.1, h2.2.2.2.2.1⟩

/-- C2: book validates in order — patient existence, date/time
parseability, non-empty doctor, slot conflict — reporting the matching
error and leaving the state unchanged on each failure. -/
theorem C2_book_validation_cascade (st : AppState) (p? f? hr? m? : Option String) :
    ((¬ ∃ q ∈ st.patients, (q.1 : Int) = pyIntOr0 (p?.getD "0")) →
      create_appointment st p? f? hr? m? = (BookResult.invalidPatientError, st)) ∧
    ((∃ q ∈ st.patients, (q.1 : Int) = pyIntOr0 (p?.getD "0")) →
      parse_datetime (pyStrip (f?.getD "")) (pyStrip (hr?.getD "")) = none →
      create_appointment st p? f? hr? m? = (BookResult.invalidDateTimeError, st)) ∧
    ((∃ q ∈ st.patients, (q.1 : Int) = pyIntOr0 (p?.getD "0")) →
      parse_datetime (pyStrip (f?.getD "")) (pyStrip (hr?.getD "")) ≠ none →
      pyStrip (m?.getD "") = "" →
      create_appointment st p? f? hr? m? = (BookResult.missingDoctorError, st)) ∧
    ((∃ q ∈ st.patients, (q.1 : Int) = pyIntOr0 (p?.getD "0")) →
      parse_datetime (pyStrip (f?.getD "")) (pyStrip (hr?.getD "")) ≠ none →
      pyStrip (m?.getD "") ≠ "" →
      (∃ q ∈ st.appointments,
        pyLower (pyStrip q.2.medico) = pyLower (pyStrip (m?.getD "")) ∧
          q.2.fecha = pyStrip (f?.getD "") ∧ q.2.hora = pyStrip (hr?.getD "")) →
      create_appointment st p? f? hr? m? = (BookResult.conflictError, st)) := by
  have hmem := patients_any_iff st (pyIntOr0 (p?.getD "0"))
  refine ⟨?_, ?_, ?_, ?_⟩
  · intro h1
    have hb1 : (st.patients.any fun q => (q.1 : Int) == pyIntOr0 (p?.getD "0")) = false :=
      Bool.eq_false_iff.2 fun ht => h1 (hmem.1 ht)
    unfold create_appointment
    dsimp only
    rw [hb1]
    simp
  · intro h1 h2
    have hb1 := hmem.2 h1
    unfold create_appointment
    dsimp only
    rw [hb1, h2]
    simp
  · intro h1 h2 h3
    have hb1 := hmem.2 h1
    have hb2 : (parse_datetime (pyStrip (f?.getD "")) (pyStrip (hr?.getD ""))).isNone = false :=
      Bool.eq_false_iff.2 fun ht => h2 (Option.isNone_iff_eq_none.1 ht)
    unfold create_appointment
    dsimp only
    rw [hb1, hb2, beq_iff_eq.2 h3]
    simp
  · intro h1 h2 h3 h4
    have hb1 := hmem.2 h1
    have hb2 : (parse_datetime (pyStrip (f?.getD "")) (pyStrip (hr?.getD ""))).isNone = false :=
      Bool.eq_false_iff.2 fun ht => h2 (Option.isNone_iff_eq_none.1 ht)
    have hb3 : (pyStrip (m?.getD "") == "") = false :=
      Bool.eq_false_iff.2 fun ht => h3 (beq_iff_eq.1 ht)
    have hb4 : has_conflict st.appointments (pyStrip (m?.getD "")) (pyStrip (f?.getD ""))
        (pyStrip (hr?.getD "")) none = true := by
      rw [has_conflict_eq_true_iff, pyStrip_idem]
      exact h4
    unfold create_appointment
    dsimp only
    rw [hb1, hb2, hb3, hb4]
    simp

theorem C2_witness :
    create_appointment exampleState2 (some "1") (some "2025-02-30") (some "10:00")
        (some "Dr. Lopez") =
      (BookResult.invalidDateTimeError, exampleState2) :=
  (C2_book_validation_cascade exampleState2 (some "1") (some "2025-02-30") (some "10:00")
      (some "Dr. Lopez")).2.1
    ⟨(1, examplePatient), by decide, by decide⟩ (by decide)

/-- C5: register fails with the validation error when any field is
empty after trimming, otherwise with the duplicate-document error when
an existing document matches after trimming and lowercasing, otherwise
assigns the next sequential identifier and stores the patient. -/
theorem C5_register_cascade (st : AppState) (n? d? t? c? : Option String) :
    ((pyStrip (n?.getD "") = "" ∨ pyStrip (d?.getD "") = "" ∨
        pyStrip (t?.getD "") = "" ∨ pyStrip (c?.getD "") = "") →
      create_patient st n? d? t? c? = (RegisterResult.validationError, st)) ∧
    (pyStrip (n?.getD "") ≠ "" → pyStrip (d?.getD "") ≠ "" →
      pyStrip (t?.getD "") ≠ "" → pyStrip (c?.getD "") ≠ "" →
      (∃ q ∈ st.patients,
        pyLower (pyStrip q.2.documento) = pyLower (pyStrip (d?.getD ""))) →
      create_patient st n? d? t? c? = (RegisterResult.duplicateDocumentError, st)) ∧
    (pyStrip (n?.getD "") ≠ "" → pyStrip (d?.getD "") ≠ "" →
      pyStrip (t?.getD "") ≠ "" → pyStrip (c?.getD "") ≠ "" →
      (¬ ∃ q ∈ st.patients,
        pyLower (pyStrip q.2.documento) = pyLower (pyStrip (d?.getD ""))) →
      create_patient st n? d? t? c? =
        (RegisterResult.ok st.pid_counter,
          { st with
            patients := st.patients ++
              [(st.pid_counter,
                ⟨pyStrip (n?.getD ""), pyStrip (d?.getD ""), pyStrip (t?.getD ""),
                  pyStrip (c?.getD "")⟩)],
            pid_counter := st.pid_counter + 1 })) := by
  have hdup : (st.patients.any fun q =>
      pyLower (pyStrip q.2.documento) == pyLower (pyStrip (d?.getD ""))) = true ↔
      ∃ q ∈ st.patients,
        pyLower (pyStrip q.2.documento) = pyLower (pyStrip (d?.getD "")) := by
    simp [List.any_eq_true]
  refine ⟨?_, ?_, ?_⟩
  · intro h1
    unfold create_patient
    dsimp only
    rw [if_pos (by simpa [or_assoc] using h1)]
  · intro hn hd ht hc hex
    unfold create_patient
    dsimp only
    rw [if_neg (by simp [hn, hd, ht, hc]), if_pos (hdup.2 hex)]
  · intro hn hd ht hc hnex
    unfold create_patient
    dsimp only
    rw [if_neg (by simp [hn, hd, ht, hc]),
      if_neg (fun hcond => hnex (hdup.1 hcond))]

theorem C5_witness :
    create_patient exampleState1 (some "Ana Ruiz") (some " cc-1001 ")
        (some "3000000002") (some "ana@example.com") =
      (RegisterResult.duplicateDocumentError, exampleState1) :=
  (C5_register_cascade exampleState1 (some "Ana Ruiz") (some " cc-1001 ")
      (some "3000000002") (some "ana@example.com")).2.1
    (by decide) (by decide) (by decide) (by decide)
    ⟨(1, examplePatient), by decide, by decide⟩

/-- C3: whenever the listing is defined it is sorted non-decreasing by
the parsed date+time key, contains exactly the stored appointments, and
entries with an equal key keep their insertion order (stability). -/
theorem C3_listing_sorted_stable (aps l : List (Nat × Appointment))
    (h : upcoming_sorted aps = some l) :
    l.Pairwise (fun p q => keyLe p q = true) ∧
    List.Perm l aps ∧
    ∀ k : DT, (l.filter fun q => parse_datetime q.2.fecha q.2.hora == some k) =
      (aps.filter fun q => parse_datetime q.2.fecha q.2.hora == some k) := by
  obtain ⟨hl, hall⟩ := upcoming_sorted_eq_some h
  subst hl
  refine ⟨List.sorted_mergeSort keyLe_trans keyLe_total aps,
    List.mergeSort_perm aps keyLe, ?_⟩
  intro k
  have hfsub : List.Sublist
      (aps.filter fun q => parse_datetime q.2.fecha q.2.hora == some k)
      (aps.mergeSort keyLe) := by
    apply List.sublist_mergeSort keyLe_trans keyLe_total
    · apply List.pairwise_of_forall_mem_list
      intro a ha b hb
      have hak := (List.mem_filter.1 ha).2
      have hbk := (List.mem_filter.1 hb).2
      rw [beq_iff_eq] at hak hbk
      show keyLe a b = true
      unfold keyLe keyfun
      rw [hak, hbk]
      exact DT.le_refl' k
    · exact List.filter_sublist aps
  have hperm : List.Perm
      ((aps.mergeSort keyLe).filter fun q => parse_datetime q.2.fecha q.2.hora == some k)
      (aps.filter fun q => parse_datetime q.2.fecha q.2.hora == some k) :=
    (List.mergeSort_perm aps keyLe).filter _
  have hsub2 : List.Sublist
      (aps.filter fun q => parse_datetime q.2.fecha q.2.hora == some k)
      ((aps.mergeSort keyLe).filter fun q => parse_datetime q.2.fecha q.2.hora == some k) := by
    have h2 := hfsub.filter (fun q => parse_datetime q.2.fecha q.2.hora == some k)
    have heq : ((aps.filter fun q => parse_datetime q.2.fecha q.2.hora == some k).filter
        fun q => parse_datetime q.2.fecha q.2.hora == some k) =
        aps.filter fun q => parse_datetime q.2.fecha q.2.hora == some k := by
      rw [List.filter_eq_self]
      intro a ha
      exact (List.mem_filter.1 ha).2
    rwa [heq] at h2
  exact (hsub2.eq_of_length hperm.length_eq.symm).symm

theorem C3_witness :
    ([((1 : Nat), exampleAppt)].Pairwise fun p q => keyLe p q = true) ∧
    List.Perm [((1 : Nat), exampleAppt)] [((1 : Nat), exampleAppt)] := by
  have hs : upcoming_sorted [((1 : Nat), exampleAppt)] = some [((1 : Nat), exampleAppt)] := by
    unfold upcoming_sorted
    rw [if_pos (by decide), List.mergeSort_singleton]
  have h := C3_listing_sorted_stable [((1 : Nat), exampleAppt)] [((1 : Nat), exampleAppt)] hs
  exact ⟨h.1, h.2.1⟩

/-- C8: with a filter that is non-empty after trimming, the listing is
exactly the chronologically sorted listing restricted to the
appointments whose doctor matches the filter after trimming and
lowercasing; with an empty (or absent) filter all appointments are
returned. -/
theorem C8_doctor_filter (st : AppState) (f? : Option String)
    (l : List (Nat × Appointment)) (h : upcoming_sorted st.appointments = some l) :
    (pyStrip (f?.getD "") ≠ "" →
      home st f? = some (l.filter fun q =>
        pyLower (pyStrip q.2.medico) == pyLower (pyStrip (f?.getD "")))) ∧
    (pyStrip (f?.getD "") = "" → home st f? = some l) := by
  constructor
  · intro hne
    unfold home
    dsimp only
    rw [h]
    simp only [Option.map_some']
    rw [if_neg (fun ht => hne (beq_iff_eq.1 ht)), pyStrip_idem]
  · intro he
    unfold home
    dsimp only
    rw [h]
    simp only [Option.map_some']
    rw [if_pos (beq_iff_eq.2 he)]

theorem C8_witness :
    home exampleState2 (some "dr. lopez") =
      some ([((1 : Nat), exampleAppt)].filter fun q =>
        pyLower (pyStrip q.2.medico) == pyLower (pyStrip ((some "dr. lopez").getD ""))) := by
  have happ : exampleState2.appointments = [((1 : Nat), exampleAppt)] := by decide
  have hs : upcoming_sorted exampleState2.appointments = some [((1 : Nat), exampleAppt)] := by
    rw [happ]
    unfold upcoming_sorted
    rw [if_pos (by decide), List.mergeSort_singleton]
  exact (C8_doctor_filter exampleState2 (some "dr. lopez") _ hs).1 (by decide)

theorem patIds_cons_pat (i : Nat) (evs : List Ev) :
    patIds (Ev.pat i :: evs) = i :: patIds evs := rfl

theorem patIds_cons_appt (i : Nat) (evs : List Ev) :
    patIds (Ev.appt i :: evs) = patIds evs := rfl

theorem apptIds_cons_pat (i : Nat) (evs : List Ev) :
    apptIds (Ev.pat i :: evs) = apptIds evs := rfl

theorem apptIds_cons_appt (i : Nat) (evs : List Ev) :
    apptIds (Ev.appt i :: evs) = i :: apptIds evs := rfl

/-- Over any run, the assigned patient identifiers (respectively
appointment identifiers) form the consecutive range starting at the
current counter, and the counter ends up advanced by exactly the number
of successful creations. -/
theorem runEvents_ids (ops : List Op) (st : AppState) :
    patIds (runEvents st ops).2 =
      List.range' st.pid_counter (patIds (runEvents st ops).2).length ∧
    (runEvents st ops).1.pid_counter =
      st.pid_counter + (patIds (runEvents st ops).2).length ∧
    apptIds (runEvents st ops).2 =
      List.range' st.aid_counter (apptIds (runEvents st ops).2).length ∧
    (runEvents st ops).1.aid_counter =
      st.aid_counter + (apptIds (runEvents st ops).2).length := by
  induction ops generalizing st with
  | nil => simp [runEvents, patIds, apptIds]
  | cons op ops ih =>
    cases op with
    | register n d t c =>
      rcases create_patient_shape st n d t c with ⟨hok, hpc, hac⟩ | ⟨hst, herr⟩
      · have happly : applyOp st (Op.register n d t c) =
            ((create_patient st n d t c).2, [Ev.pat st.pid_counter]) := by
          unfold applyOp
          dsimp only
          rw [hok]
        have hrun : runEvents st (Op.register n d t c :: ops) =
            ((runEvents (create_patient st n d t c).2 ops).1,
              Ev.pat st.pid_counter :: (runEvents (create_patient st n d t c).2 ops).2) := by
          conv_lhs => rw [runEvents]
          rw [happly]
          rfl
        rw [hrun]
        dsimp only
        obtain ⟨ih1, ih2, ih3, ih4⟩ := ih (create_patient st n d t c).2
        rw [hpc] at ih1 ih2
        rw [hac] at ih3 ih4
        refine ⟨?_, ?_, ?_, ?_⟩
        · rw [patIds_cons_pat, List.length_cons, List.range'_succ]
          exact congrArg (fun x => st.pid_counter :: x) ih1
        · rw [patIds_cons_pat, List.length_cons]
          omega
        · rw [apptIds_cons_pat]
          exact ih3
        · rw [apptIds_cons_pat]
          omega
      · have happly : applyOp st (Op.register n d t c) = (st, []) := by
          unfold applyOp
          dsimp only
          rcases herr with h | h <;> rw [h, hst]
        have hrun : runEvents st (Op.register n d t c :: ops) = runEvents st ops := by
          conv_lhs => rw [runEvents]
          rw [happly]
          rfl
        rw [hrun]
        exact ih st
    | book p f hr m =>
      rcases create_appointment_shape st p f hr m with ⟨hok, hac, hpc⟩ | ⟨hst, herr⟩
      · have happly : applyOp st (Op.book p f hr m) =
            ((create_appointment st p f hr m).2, [Ev.appt st.aid_counter]) := by
          unfold applyOp
          dsimp only
          rw [hok]
        have hrun : runEvents st (Op.book p f hr m :: ops) =
            ((runEvents (create_appointment st p f hr m).2 ops).1,
              Ev.appt st.aid_counter :: (runEvents (create_appointment st p f hr m).2 ops).2) := by
          conv_lhs => rw [runEvents]
          rw [happly]
          rfl
        rw [hrun]
        dsimp only
        obtain ⟨ih1, ih2, ih3, ih4⟩ := ih (create_appointment st p f hr m).2
        rw [hpc] at ih1 ih2
        rw [hac] at ih3 ih4
        refine ⟨?_, ?_, ?_, ?_⟩
        · rw [patIds_cons_appt]
          exact ih1
        · rw [patIds_cons_appt]
          omega
        · rw [apptIds_cons_appt, List.length_cons, List.range'_succ]
          exact congrArg (fun x => st.aid_counter :: x) ih3
        · rw [apptIds_cons_appt, List.length_cons]
          omega
      · have happly : applyOp st (Op.book p f hr m) = (st, []) := by
          unfold applyOp
          dsimp only
          rcases herr with h | h | h | h <;> rw [h, hst]
        have hrun : runEvents st (Op.book p f hr m :: ops) = runEvents st ops := by
          conv_lhs => rw [runEvents]
          rw [happly]
          rfl
        rw [hrun]
        exact ih st
    | cancel i =>
      have hrun : runEvents st (Op.cancel i :: ops) =
          runEvents (cancel_appointment st i).2 ops := by
        conv_lhs => rw [runEvents]
        rfl
      rw [hrun]
      obtain ⟨hpc, hac, -⟩ := cancel_appointment_shape st i
      obtain ⟨ih1, ih2, ih3, ih4⟩ := ih (cancel_appointment st i).2
      rw [hpc] at ih1 ih2
      rw [hac] at ih3 ih4
      exact ⟨ih1, ih2, ih3, ih4⟩

/-- C6: over every operation sequence from the initial state, the
patient identifiers assigned by successful registrations are exactly
1, 2, 3, … in order, and likewise, independently, the appointment
identifiers assigned by successful bookings: each type's counter starts
at 1, advances only on successful creation, and ids are never reused. -/
theorem C6_sequential_ids (ops : List Op) :
    patIds (runEvents initialState ops).2 =
      List.range' 1 (patIds (runEvents initialState ops).2).length ∧
    apptIds (runEvents initialState ops).2 =
      List.range' 1 (apptIds (runEvents initialState ops).2).length :=
  ⟨(runEvents_ids ops initialState).1, (runEvents_ids ops initialState).2.2.1⟩

end App
